import Mathlib

/-!
Shallow embedding of the investez repository's core: the portfolio
aggregation service (`src/services/portfolio.py` with its broker adapters
`src/tools/kite.py`, `src/tools/groww.py`) and the orchestrator's intent
classification (`src/agents/orchestrator.py`, `src/main.py`), together with
theorems settling the specification claims.

Modelling conventions:
* Python `float`/`int` values are modelled by `ℚ`.
* A numeric dict entry whose value may be Python `None` is `PyNum := Option ℚ`
  (`none` = `None`); a possibly missing dict key adds an outer `Option`.
* Raising Python code lives in `Except PyExc`; Python's binding of call
  arguments to a function signature is made explicit by `checkCall`, so that a
  keyword argument passed to a function declared without parameters raises
  `TypeError` exactly as in CPython.
* External collaborators (broker SDK endpoints, the screener lookup, the
  mfapi day-change lookup) appear as oracle parameters returning the value the
  adapter code observes, or the exception it has to handle.
* Wall-clock fields (`Portfolio.fetched_at`) and logging/printing are omitted,
  except where a print itself raises (the Groww quote f-string, modelled
  explicitly in `groww_quote_branch`).
-/

namespace Investez

/-- Python exceptions the embedded code can raise or observe. -/
inductive PyExc where
  | typeError (msg : String)
  | indexError
  | growwTokenExpired (msg : String)
  | growwApiError (msg : String)
  | other (msg : String)
  deriving DecidableEq, Repr

instance {e a : Type _} [DecidableEq e] [DecidableEq a] : DecidableEq (Except e a) := fun
  | .ok x, .ok y =>
    if h : x = y then .isTrue (h ▸ rfl) else .isFalse (fun he => h (Except.ok.inj he))
  | .error x, .error y =>
    if h : x = y then .isTrue (h ▸ rfl) else .isFalse (fun he => h (Except.error.inj he))
  | .ok _, .error _ => .isFalse (fun he => Except.noConfusion he)
  | .error _, .ok _ => .isFalse (fun he => Except.noConfusion he)

/-- A Python numeric value that may be `None`. -/
abbrev PyNum := Option ℚ

/-- Python multiplication; `None * x` raises `TypeError`. -/
def pyMul (a b : PyNum) : Except PyExc ℚ :=
  match a, b with
  | some x, some y => .ok (x * y)
  | _, _ => .error (.typeError "unsupported operand type(s) for *")

/-- Using a `PyNum` where a number is required (`round`, `/`); `None` raises. -/
def pyToQ (a : PyNum) : Except PyExc ℚ :=
  match a with
  | some x => .ok x
  | none => .error (.typeError "expected a number, got NoneType")

/-- Python truthiness of a numeric value: `None` and `0` are falsy. -/
def pyTruthy (a : PyNum) : Bool :=
  match a with
  | some x => decide (x ≠ 0)
  | none => false

/-- Python `round(x, 2)`.  `Mathlib.round` rounds half away from even while
CPython uses banker's rounding; the two agree except on exact `.005` ties,
where both return a multiple of `1/100` within `1/200` of the input, which is
all any theorem below uses. -/
def round2 (x : ℚ) : ℚ := (round (x * 100) : ℚ) / 100

/-- The positional-or-keyword parameters of a Python function, with the number
of trailing parameters that carry defaults. -/
structure PySig where
  params : List String
  defaults : Nat

/-- CPython's binding of `posArgs` positional and `kwargs` keyword arguments
against a signature: unexpected keywords, duplicate bindings and unbound
non-default parameters raise `TypeError`. -/
def checkCall (sig : PySig) (posArgs : Nat) (kwargs : List String) : Except PyExc Unit :=
  if posArgs > sig.params.length then
    .error (.typeError "too many positional arguments")
  else if kwargs.any (fun k => !(sig.params.contains k)) then
    .error (.typeError "got an unexpected keyword argument")
  else if kwargs.any (fun k => (sig.params.take posArgs).contains k) then
    .error (.typeError "got multiple values for argument")
  else if ((sig.params.take (sig.params.length - sig.defaults)).drop posArgs).all
      (fun p => kwargs.contains p) then
    .ok ()
  else
    .error (.typeError "missing required positional argument")

/-- `def get_holdings():` in src/tools/kite.py (line 292) — no parameters. -/
def kite_get_holdings_sig : PySig := ⟨[], 0⟩

/-- `def get_mf_holdings():` in src/tools/kite.py (line 331) — no parameters. -/
def kite_get_mf_holdings_sig : PySig := ⟨[], 0⟩

/-- `def _process_mf_holding(raw, broker):` in src/services/portfolio.py. -/
def process_mf_holding_sig : PySig := ⟨["raw", "broker"], 0⟩

/-- `def get_holdings(user_id, price_map=None, fetch_quotes=True):` in
src/tools/groww.py. -/
def groww_get_holdings_sig : PySig := ⟨["user_id", "price_map", "fetch_quotes"], 2⟩

/-- A raw broker holding dict: the keys touched anywhere in the portfolio
service.  The outer `Option` is key presence; string-valued keys are assumed
to hold strings when present (they always do in the source). -/
structure RawHolding where
  tradingsymbol : Option String := none
  trading_symbol : Option String := none
  exchange : Option String := none
  isin : Option String := none
  quantity : Option PyNum := none
  average_price : Option PyNum := none
  last_price : Option PyNum := none
  pnl : Option PyNum := none
  day_change : Option PyNum := none
  day_change_percentage : Option PyNum := none
  fund : Option String := none
  folio : Option String := none
  deriving DecidableEq, Repr

/-- `models/portfolio.py::Holding` (pydantic coercions not modelled). -/
structure Holding where
  symbol : String
  exchange : String
  isin : Option String
  quantity : PyNum
  avg_price : PyNum
  current_price : PyNum
  value : ℚ
  invested : ℚ
  pnl : ℚ
  pnl_percent : ℚ
  day_change : PyNum
  day_change_percent : PyNum
  market_cap_category : Option String
  broker : String
  deriving DecidableEq, Repr

/-- `models/portfolio.py::MFHolding`. -/
structure MFHolding where
  scheme_code : String
  scheme_name : String
  fund_house : Option String
  folio : Option String
  units : PyNum
  avg_nav : PyNum
  current_nav : PyNum
  value : ℚ
  invested : ℚ
  pnl : ℚ
  pnl_percent : ℚ
  day_change : ℚ
  day_change_percent : ℚ
  market_cap_category : Option String
  broker : String
  deriving DecidableEq, Repr

/-- `models/portfolio.py::PortfolioSummary`. -/
structure PortfolioSummary where
  total_value : ℚ
  total_invested : ℚ
  total_pnl : ℚ
  total_pnl_percent : ℚ
  day_pnl : ℚ
  day_pnl_percent : ℚ
  stocks_value : ℚ
  mf_value : ℚ
  stocks_invested : ℚ
  mf_invested : ℚ
  stocks_pnl : ℚ
  mf_pnl : ℚ
  stocks_day_change : ℚ
  mf_day_change : ℚ
  holdings_count : Nat
  mf_count : Nat
  deriving DecidableEq, Repr

/-- `models/portfolio.py::AllocationBreakdown`; Python dicts are modelled as
insertion-ordered association lists. -/
structure AllocationBreakdown where
  market_cap : List (String × ℚ)
  asset_type : List (String × ℚ)
  deriving DecidableEq, Repr

/-- `models/portfolio.py::Portfolio` without the wall-clock `fetched_at`. -/
structure Portfolio where
  summary : PortfolioSummary
  holdings : List Holding
  mf_holdings : List MFHolding
  allocation : AllocationBreakdown
  deriving DecidableEq, Repr

/-- `d[k] += v` on a `defaultdict(float)`: accumulate in insertion order. -/
def addToBucket (buckets : List (String × ℚ)) (k : String) (v : ℚ) : List (String × ℚ) :=
  match buckets with
  | [] => [(k, v)]
  | (k', v') :: rest =>
    if k' = k then (k', v' + v) :: rest else (k', v') :: addToBucket rest k v

/-- `d[k] = v` on a dict: overwrite in place or append. -/
def dictSet (m : List (String × ℚ)) (k : String) (v : ℚ) : List (String × ℚ) :=
  match m with
  | [] => [(k, v)]
  | (k', v') :: rest =>
    if k' = k then (k, v) :: rest else (k', v') :: dictSet rest k v

/-- Python `a or b` for an optional string: `None` and `""` are falsy. -/
def pyOrStr (a : Option String) (b : String) : String :=
  match a with
  | some s => if s = "" then b else s
  | none => b

/-! ### String primitives (ASCII fragment of the Python `str` operations) -/

/-- ASCII uppercase of one character, as Python `str.upper` acts on ASCII. -/
def upChar (c : Char) : Char :=
  if 'a' ≤ c ∧ c ≤ 'z' then Char.ofNat (c.toNat - 32) else c

/-- ASCII lowercase of one character, as Python `str.lower` acts on ASCII. -/
def lowChar (c : Char) : Char :=
  if 'A' ≤ c ∧ c ≤ 'Z' then Char.ofNat (c.toNat + 32) else c

/-- Python `str.upper` on a character list. -/
def upStr (s : List Char) : List Char := s.map upChar

/-- Python `str.lower` on a character list. -/
def lowStr (s : List Char) : List Char := s.map lowChar

/-- The whitespace characters Python's `str.split`/`str.strip` treat as such
(ASCII fragment). -/
def isPySpace (c : Char) : Bool :=
  c = ' ' || c = '\t' || c = '\n' || c = '\x0d' || c = '\x0b' || c = '\x0c'

/-- Python `str.strip()` (ASCII whitespace). -/
def pyStrip (s : List Char) : List Char :=
  ((s.dropWhile isPySpace).reverse.dropWhile isPySpace).reverse

/-- Python `sub in s` substring test. -/
def hasSub (sub s : List Char) : Bool := decide (sub <:+: s)

/-- Python `sub in s` on `String`s. -/
def strHasSub (sub s : String) : Bool := hasSub sub.toList s.toList

/-- Python `str.upper` on a `String`. -/
def strUp (s : String) : String := ⟨upStr s.toList⟩

/-- `_parse_mf_market_cap` from src/services/portfolio.py: name-based
market-cap heuristic for mutual-fund scheme names. -/
def parse_mf_market_cap (scheme_name : String) : String :=
  let name_upper := strUp scheme_name
  if strHasSub "SMALL CAP" name_upper || strHasSub "SMALLCAP" name_upper then
    "Small Cap"
  else if strHasSub "MID CAP" name_upper || strHasSub "MIDCAP" name_upper then
    if strHasSub "LARGE" name_upper then "Multi Cap" else "Mid Cap"
  else if strHasSub "LARGE CAP" name_upper || strHasSub "LARGECAP" name_upper then
    if strHasSub "MID" name_upper then "Multi Cap" else "Large Cap"
  else
    "Multi Cap"

/-! ### Broker adapters (src/tools/kite.py, src/tools/groww.py)

`session` models whether `get_kite()` / `get_groww(...)` produced an
authenticated instance; the `api` arguments model the SDK call outcome. -/

/-- `get_holdings` from src/tools/kite.py: any exception from
`kite.holdings()` is caught and turned into `[]`. -/
def kite_get_holdings (session : Bool) (api : Except PyExc (List RawHolding)) :
    List RawHolding :=
  if !session then []
  else
    match api with
    | .ok hs => hs
    | .error _ => []

/-- `get_mf_holdings` from src/tools/kite.py: same swallow-all shape. -/
def kite_get_mf_holdings (session : Bool) (api : Except PyExc (List RawHolding)) :
    List RawHolding :=
  if !session then []
  else
    match api with
    | .ok hs => hs
    | .error _ => []

/-- A quote dict from the Groww SDK's `get_quote`. -/
structure GrowwQuote where
  last_price : PyNum := none
  day_change : PyNum := none
  day_change_perc : PyNum := none
  deriving DecidableEq, Repr

/-- The auth-failure test src/tools/groww.py applies to a
`GrowwAPIException` message. -/
def isAuthMsg (m : String) : Bool :=
  strHasSub "401" m || strHasSub "403" m || strHasSub "Unauthorized" m ||
    strHasSub "Authentication" m

def growwTokenMsg : String := "Groww access token has expired. Please re-authenticate."

/-- The quote-fetch arm of the per-holding loop in groww `get_holdings`
(lines 163-188): the success print formats `day_change_perc` with `:.2f`,
which raises `TypeError` on `None`; the surrounding `except Exception` then
resets only `last_price` to `None`, keeping the already-assigned day-change
fields. -/
def groww_quote_branch (quoteApi : String → Except PyExc (Option GrowwQuote))
    (symbol : String) : Except PyExc (PyNum × PyNum × PyNum) :=
  match quoteApi symbol with
  | .ok (some q) =>
    if pyTruthy q.last_price then
      if q.day_change_perc = none then .ok (none, q.day_change, q.day_change_perc)
      else .ok (q.last_price, q.day_change, q.day_change_perc)
    else .ok (none, none, none)
  | .ok none => .ok (none, none, none)
  | .error (.growwApiError m) =>
    if isAuthMsg m then .error (.growwTokenExpired growwTokenMsg)
    else .ok (none, none, none)
  | .error _ => .ok (none, none, none)

/-- The transform loop of groww `get_holdings` (lines 143-203), producing
Kite-shaped raw dicts; note `pnl` is stored as present-but-`None`. -/
def groww_transform (quoteApi : String → Except PyExc (Option GrowwQuote))
    (price_map : Option (List (String × ℚ))) (fetch_quotes : Bool) :
    List RawHolding → Except PyExc (List RawHolding)
  | [] => .ok []
  | h :: rest => do
    let symbol := h.trading_symbol.getD ""
    let fields ←
      if fetch_quotes then
        if (match price_map with
            | some pm => !pm.isEmpty && (pm.lookup symbol).isSome
            | none => false) then
          .ok (some (((price_map.getD []).lookup symbol).getD 0),
               (some 0 : PyNum), (some 0 : PyNum))
        else groww_quote_branch quoteApi symbol
      else .ok ((none : PyNum), (none : PyNum), (none : PyNum))
    let tr : RawHolding :=
      { tradingsymbol := some symbol, trading_symbol := some symbol,
        exchange := some "NSE", isin := h.isin,
        quantity := some (h.quantity.getD (some 0)),
        average_price := some (h.average_price.getD (some 0)),
        last_price := some fields.1, pnl := some none,
        day_change := some fields.2.1, day_change_percentage := some fields.2.2 }
    let restT ← groww_transform quoteApi price_map fetch_quotes rest
    .ok (tr :: restT)

/-- `get_holdings` from src/tools/groww.py: re-raises
`GrowwTokenExpiredError`, converts auth-flavoured `GrowwAPIException` into it,
and swallows everything else into `[]`. -/
def groww_get_holdings (session : Bool)
    (api : Except PyExc (Option (List RawHolding)))
    (quoteApi : String → Except PyExc (Option GrowwQuote))
    (price_map : Option (List (String × ℚ))) (fetch_quotes : Bool := true) :
    Except PyExc (List RawHolding) :=
  if !session then .ok []
  else
    match api with
    | .ok (some holdings) => groww_transform quoteApi price_map fetch_quotes holdings
    | .ok none => .ok []
    | .error (.growwTokenExpired m) => .error (.growwTokenExpired m)
    | .error (.growwApiError m) =>
      if isAuthMsg m then .error (.growwTokenExpired growwTokenMsg) else .ok []
    | .error _ => .ok []

/-! ### Portfolio service (src/services/portfolio.py)

`fund` is the observable outcome of the try-wrapped
`get_stock_fundamentals(symbol).market_cap_category` lookup (exceptions and
misses both leave it `none`); `mfDay` is the observable outcome of the
try-wrapped scheme-code + `get_mf_day_change` lookup, giving
`(change, change_percent)` on success. -/

/-- `_enrich_holding`: convert a raw broker dict into a `Holding`. -/
def enrich_holding (fund : String → Option String) (raw : RawHolding)
    (broker : String) : Except PyExc Holding := do
  let symbol := pyOrStr raw.tradingsymbol (raw.trading_symbol.getD "")
  let quantity : PyNum := raw.quantity.getD (some 0)
  let avg_price : PyNum := raw.average_price.getD (some 0)
  let current_price : PyNum := raw.last_price.getD (some 0)
  let value ← pyMul quantity current_price
  let invested ← pyMul quantity avg_price
  let pnl : PyNum := raw.pnl.getD (some (value - invested))
  let pnl_percent ←
    if invested > 0 then do
      let p ← pyToQ pnl
      pure (p / invested * 100)
    else pure (0 : ℚ)
  let market_cap_category := fund symbol
  let pnlQ ← pyToQ pnl
  pure { symbol, exchange := raw.exchange.getD "NSE", isin := raw.isin,
         quantity, avg_price, current_price,
         value := round2 value, invested := round2 invested,
         pnl := round2 pnlQ, pnl_percent := round2 pnl_percent,
         day_change := raw.day_change.getD (some 0),
         day_change_percent := raw.day_change_percentage.getD (some 0),
         market_cap_category, broker }

/-- `_process_mf_holding`: convert a raw Kite MF dict into an `MFHolding`;
P&L is always recomputed, the day-change lookup failure path leaves zeros. -/
def process_mf_holding (mfDay : String → Option (ℚ × ℚ)) (raw : RawHolding)
    (broker : String) : Except PyExc MFHolding := do
  let units : PyNum := raw.quantity.getD (some 0)
  let avg_nav : PyNum := raw.average_price.getD (some 0)
  let current_nav : PyNum := raw.last_price.getD (some 0)
  let value ← pyMul units current_nav
  let invested ← pyMul units avg_nav
  let pnl := value - invested
  let pnl_percent := if invested > 0 then pnl / invested * 100 else 0
  let scheme_name := raw.fund.getD (raw.tradingsymbol.getD "")
  let market_cap_category := parse_mf_market_cap scheme_name
  let isin := raw.tradingsymbol.getD ""
  let dc : ℚ × ℚ :=
    if scheme_name ≠ "" then
      match mfDay scheme_name, units with
      | some (chg, chgPct), some u => (chg * u, chgPct)
      | _, _ => (0, 0)
    else (0, 0)
  pure { scheme_code := isin, scheme_name, fund_house := none, folio := raw.folio,
         units, avg_nav, current_nav,
         value := round2 value, invested := round2 invested,
         pnl := round2 pnl, pnl_percent := round2 pnl_percent,
         day_change := round2 dc.1, day_change_percent := round2 dc.2,
         market_cap_category := some market_cap_category, broker }

/-- The `mcap_values` defaultdict of `_calculate_allocation` (lines 159-169):
stock values then MF values accumulated per market-cap bucket, `None` (or
empty) categories bucketed as `"Unknown"`. -/
def mcap_buckets (holdings : List Holding) (mf_holdings : List MFHolding) :
    List (String × ℚ) :=
  mf_holdings.foldl
    (fun b m => addToBucket b (pyOrStr m.market_cap_category "Unknown") m.value)
    (holdings.foldl
      (fun b h => addToBucket b (pyOrStr h.market_cap_category "Unknown") h.value) [])

/-- `_calculate_allocation`: market-cap and asset-type percentage breakdowns;
the `"Unknown"` bucket is dropped before re-normalising. -/
def calculate_allocation (holdings : List Holding) (mf_holdings : List MFHolding)
    (stocks_value mf_value : ℚ) : AllocationBreakdown :=
  let total := stocks_value + mf_value
  let mcap_values := mcap_buckets holdings mf_holdings
  let mcap_values_filtered := mcap_values.filter (fun e => e.1 ≠ "Unknown")
  let total_filtered := (mcap_values_filtered.map (·.2)).sum
  let mcap_pct := mcap_values_filtered.map (fun e =>
    (e.1, if total_filtered > 0 then round2 (e.2 / total_filtered * 100) else 0))
  let asset_pct :=
    if total > 0 then
      [("Stocks", round2 (stocks_value / total * 100)),
       ("Mutual Funds", round2 (mf_value / total * 100))]
    else []
  { market_cap := mcap_pct, asset_type := asset_pct }

/-- The price-map build in `get_portfolio`/`get_holdings_only`
(lines 206-212): symbol → last price for truthy entries. -/
def build_price_map (rawKite : List RawHolding) : List (String × ℚ) :=
  rawKite.foldl
    (fun pm h =>
      let symbol := h.tradingsymbol.getD ""
      let lp : PyNum := h.last_price.getD (some 0)
      if symbol ≠ "" ∧ pyTruthy lp then dictSet pm symbol (lp.getD 0) else pm)
    []

/-- `raw.get("quantity", 0) * raw.get("last_price", 0)` of one raw holding. -/
def rawValue (h : RawHolding) : Except PyExc ℚ :=
  pyMul (h.quantity.getD (some 0)) (h.last_price.getD (some 0))

/-- `all_raw_holdings` (lines 218-222): kite then groww raws, broker-tagged
(the `if` guards mirror the source's `if raw_kite_holdings:` checks, which are
no-ops on lists). -/
def combined_raw (rawKite rawGroww : List RawHolding) : List (RawHolding × String) :=
  (if rawKite.isEmpty then [] else rawKite.map (·, "kite")) ++
    (if rawGroww.isEmpty then [] else rawGroww.map (·, "groww"))

/-- The aggregation part of `get_portfolio` (lines 217-284), from the fetched
raw lists to the final `Portfolio`. -/
def build_portfolio (fund : String → Option String) (mfDay : String → Option (ℚ × ℚ))
    (rawKite rawGroww rawMf : List RawHolding) : Except PyExc (Option Portfolio) := do
  let all_raw : List (RawHolding × String) := combined_raw rawKite rawGroww
  if all_raw.isEmpty && rawMf.isEmpty then
    pure none
  else do
    let sv ← all_raw.mapM (fun p => rawValue p.1)
    let stocks_value := sv.sum
    let mv ← rawMf.mapM rawValue
    let mf_value := mv.sum
    let total_value := stocks_value + mf_value
    let holdings ← all_raw.mapM (fun p => enrich_holding fund p.1 p.2)
    let mf_holdings ← rawMf.mapM (fun m => process_mf_holding mfDay m "kite")
    let stocks_invested := (holdings.map (·.invested)).sum
    let mf_invested := (mf_holdings.map (·.invested)).sum
    let total_invested := stocks_invested + mf_invested
    let stocks_pnl := (holdings.map (·.pnl)).sum
    let mf_pnl := (mf_holdings.map (·.pnl)).sum
    let total_pnl := stocks_pnl + mf_pnl
    let total_pnl_percent := if total_invested > 0 then total_pnl / total_invested * 100 else 0
    let sdc ← holdings.mapM (fun h => pyMul h.day_change h.quantity)
    let stocks_day_change := sdc.sum
    let mf_day_change := (mf_holdings.map (·.day_change)).sum
    let day_pnl := stocks_day_change + mf_day_change
    let day_pnl_percent := if total_value > 0 then day_pnl / total_value * 100 else 0
    let summary : PortfolioSummary :=
      { total_value := round2 total_value, total_invested := round2 total_invested,
        total_pnl := round2 total_pnl, total_pnl_percent := round2 total_pnl_percent,
        day_pnl := round2 day_pnl, day_pnl_percent := round2 day_pnl_percent,
        stocks_value := round2 stocks_value, mf_value := round2 mf_value,
        stocks_invested := round2 stocks_invested, mf_invested := round2 mf_invested,
        stocks_pnl := round2 stocks_pnl, mf_pnl := round2 mf_pnl,
        stocks_day_change := round2 stocks_day_change,
        mf_day_change := round2 mf_day_change,
        holdings_count := holdings.length, mf_count := mf_holdings.length }
    let allocation := calculate_allocation holdings mf_holdings stocks_value mf_value
    pure (some { summary, holdings, mf_holdings, allocation })

/-- The external world `get_portfolio`/`get_holdings_only`/`get_mf_only`
run against. -/
structure PortfolioEnv where
  kiteSession : Bool
  kiteHoldingsApi : Except PyExc (List RawHolding)
  kiteMfHoldingsApi : Except PyExc (List RawHolding)
  growwSession : Bool
  growwHoldingsApi : Except PyExc (Option (List RawHolding))
  growwQuoteApi : String → Except PyExc (Option GrowwQuote)
  fund : String → Option String
  mfDay : String → Option (ℚ × ℚ)

/-- `get_portfolio` from src/services/portfolio.py.  The first step models
`get_kite_holdings(user_id=user_id)`: binding the keyword argument against
`tools.kite.get_holdings`, which is declared with no parameters. -/
def get_portfolio (env : PortfolioEnv) : Except PyExc (Option Portfolio) := do
  let _ ← checkCall kite_get_holdings_sig 0 ["user_id"]
  let rawKite := kite_get_holdings env.kiteSession env.kiteHoldingsApi
  let _ ← checkCall kite_get_mf_holdings_sig 0 ["user_id"]
  let rawMf := kite_get_mf_holdings env.kiteSession env.kiteMfHoldingsApi
  let pm := build_price_map rawKite
  let _ ← checkCall groww_get_holdings_sig 0 ["user_id", "price_map"]
  let rawGroww ← groww_get_holdings env.growwSession env.growwHoldingsApi
    env.growwQuoteApi (some pm)
  build_portfolio env.fund env.mfDay rawKite rawGroww rawMf

/-- `get_holdings_only` from src/services/portfolio.py. -/
def get_holdings_only (env : PortfolioEnv) : Except PyExc (List Holding) := do
  let _ ← checkCall kite_get_holdings_sig 0 ["user_id"]
  let rawKite := kite_get_holdings env.kiteSession env.kiteHoldingsApi
  let pm := build_price_map rawKite
  let _ ← checkCall groww_get_holdings_sig 0 ["user_id", "price_map"]
  let rawGroww ← groww_get_holdings env.growwSession env.growwHoldingsApi
    env.growwQuoteApi (some pm)
  let hk ← rawKite.mapM (fun h => enrich_holding env.fund h "kite")
  let hg ← rawGroww.mapM (fun h => enrich_holding env.fund h "groww")
  pure (hk ++ hg)

/-- The call `_process_mf_holding(m)` in `get_mf_only`: one positional
argument bound against a two-parameter signature, so `broker` never binds and
the call raises `TypeError`; the continuation is unreachable. -/
def call_process_mf_holding_1arg (mfDay : String → Option (ℚ × ℚ))
    (m : RawHolding) : Except PyExc MFHolding := do
  let _ ← checkCall process_mf_holding_sig 1 []
  process_mf_holding mfDay m ""

/-- The body of `get_mf_only` after the adapter fetch (lines 316-319). -/
def get_mf_only_body (mfDay : String → Option (ℚ × ℚ)) (rawMf : List RawHolding) :
    Except PyExc (List MFHolding) :=
  if rawMf.isEmpty then .ok []
  else rawMf.mapM (call_process_mf_holding_1arg mfDay)

/-- `get_mf_only` from src/services/portfolio.py; the first step models
`get_mf_holdings(user_id=user_id)` against the parameterless
`tools.kite.get_mf_holdings`. -/
def get_mf_only (env : PortfolioEnv) : Except PyExc (List MFHolding) := do
  let _ ← checkCall kite_get_mf_holdings_sig 0 ["user_id"]
  let rawMf := kite_get_mf_holdings env.kiteSession env.kiteMfHoldingsApi
  get_mf_only_body env.mfDay rawMf

/-! ### Orchestrator string utilities (src/agents/orchestrator.py)

Queries are manipulated as `List Char`.  The regex and `str` operations the
orchestrator uses are embedded for their ASCII fragment. -/

/-- Python `\w` (ASCII) or the ampersand kept by `_clean_symbol`. -/
def isWordAmp (c : Char) : Bool := c.isAlphanum || c = '_' || c = '&'

/-- Python `str.split()`: accumulate the current whitespace-free token
(reversed) while scanning; runs of whitespace close tokens, empties dropped. -/
def splitWsAux : List Char → List Char → List (List Char)
  | [], acc => if acc.isEmpty then [] else [acc.reverse]
  | c :: rest, acc =>
    if isPySpace c then
      if acc.isEmpty then splitWsAux rest [] else acc.reverse :: splitWsAux rest []
    else splitWsAux rest (c :: acc)

/-- Python `str.split()`: split on runs of whitespace, dropping empties. -/
def splitWs (s : List Char) : List (List Char) := splitWsAux s []

/-- Python `str.split(sep)` for the non-empty separator `s0 :: srest`; the
`fuel` argument (instantiated with the string length, which bounds the
recursion) makes the definition structurally recursive. -/
def splitSepFuel (s0 : Char) (srest : List Char) : Nat → List Char → List (List Char)
  | _, [] => [[]]
  | 0, _ :: _ => [[]]
  | fuel + 1, c :: rest =>
    if (s0 :: srest).isPrefixOf (c :: rest) then
      [] :: splitSepFuel s0 srest fuel (rest.drop srest.length)
    else
      match splitSepFuel s0 srest fuel rest with
      | [] => [[c]]
      | r :: rs => (c :: r) :: rs

def splitSep (s0 : Char) (srest : List Char) (s : List Char) : List (List Char) :=
  splitSepFuel s0 srest s.length s

/-- A leftmost match of the regex `\s+VS\.?\s+` starting exactly at the head
of `s` (the query is already uppercased): maximal whitespace run, the literal
`VS`, an optional dot, then at least one whitespace, returning the remainder
after the match.  Greediness with backtracking collapses to maximal-run
scanning because the character classes are disjoint. -/
def matchVsAt (s : List Char) : Option (List Char) :=
  if (s.takeWhile isPySpace).isEmpty then none
  else if (s.dropWhile isPySpace).take 2 = ['V', 'S'] then
    if ((s.dropWhile isPySpace).drop 2).take 1 = ['.'] then
      if ((((s.dropWhile isPySpace).drop 2).drop 1).takeWhile isPySpace).isEmpty then none
      else some ((((s.dropWhile isPySpace).drop 2).drop 1).dropWhile isPySpace)
    else
      if (((s.dropWhile isPySpace).drop 2).takeWhile isPySpace).isEmpty then none
      else some (((s.dropWhile isPySpace).drop 2).dropWhile isPySpace)
  else none

theorem matchVsAt_some_length (s r : List Char) (h : matchVsAt s = some r) :
    r.length < s.length := by
  have hsplit : (s.takeWhile isPySpace).length + (s.dropWhile isPySpace).length
      = s.length := by
    conv_rhs => rw [← List.takeWhile_append_dropWhile (p := isPySpace) (l := s)]
    exact (List.length_append _ _).symm
  simp only [matchVsAt] at h
  split at h
  · exact absurd h (by simp)
  · rename_i hws
    have hws1 : 0 < (s.takeWhile isPySpace).length := by
      rcases Nat.eq_zero_or_pos (s.takeWhile isPySpace).length with h0 | h0
      · exact absurd (List.isEmpty_iff.mpr (List.length_eq_zero.mp h0)) hws
      · exact h0
    split at h
    · rename_i htk
      have hrest2 : 2 ≤ (s.dropWhile isPySpace).length := by
        have := congrArg List.length htk
        simp [List.length_take] at this
        omega
      split at h
      · rename_i hdot
        have hr2 : 1 ≤ ((s.dropWhile isPySpace).drop 2).length := by
          have := congrArg List.length hdot
          simp only [List.length_take, List.length_singleton] at this
          omega
        split at h
        · exact absurd h (by simp)
        · have hle : ((((s.dropWhile isPySpace).drop 2).drop 1).dropWhile
              isPySpace).length ≤ (((s.dropWhile isPySpace).drop 2).drop 1).length :=
            (List.dropWhile_sublist _).length_le
          have := Option.some.inj h
          subst this
          have h1 : (((s.dropWhile isPySpace).drop 2).drop 1).length
              = (s.dropWhile isPySpace).length - 2 - 1 := by
            simp only [List.length_drop]
          omega
      · split at h
        · exact absurd h (by simp)
        · have hle : (((s.dropWhile isPySpace).drop 2).dropWhile isPySpace).length
              ≤ ((s.dropWhile isPySpace).drop 2).length :=
            (List.dropWhile_sublist _).length_le
          have := Option.some.inj h
          subst this
          have h1 : ((s.dropWhile isPySpace).drop 2).length
              = (s.dropWhile isPySpace).length - 2 := by
            simp [List.length_drop]
          omega
    · exact absurd h (by simp)

/-- `re.split(r'\s+VS\.?\s+', q)` with explicit fuel: scan left to right,
splitting at each leftmost match; a match consumes at least one character
(`matchVsAt_some_length`), so fuel = string length suffices. -/
def splitVsFuel : Nat → List Char → List (List Char)
  | _, [] => [[]]
  | 0, _ :: _ => [[]]
  | fuel + 1, c :: rest =>
    match matchVsAt (c :: rest) with
    | some rem => [] :: splitVsFuel fuel rem
    | none =>
      match splitVsFuel fuel rest with
      | [] => [[c]]
      | r :: rs => (c :: r) :: rs

/-- Python `re.split(r'\s+VS\.?\s+', q)`. -/
def splitVs (s : List Char) : List (List Char) := splitVsFuel s.length s

/-- `_clean_symbol`: non-word-non-`&` characters become spaces, then the
first whitespace token, uppercased ( `""` if none). -/
def cleanSymbol (text : List Char) : List Char :=
  match splitWs (text.map (fun c => if isWordAmp c then c else ' ')) with
  | [] => []
  | w :: _ => upStr w

/-- Python `str.replace(pat, "")` for non-empty `pat` (case-sensitive, all
non-overlapping occurrences, left to right), with fuel = string length. -/
def replaceAllFuel (p0 : Char) (prest : List Char) : Nat → List Char → List Char
  | _, [] => []
  | 0, s => s
  | fuel + 1, c :: rest =>
    if (p0 :: prest).isPrefixOf (c :: rest) then
      replaceAllFuel p0 prest fuel (rest.drop prest.length)
    else c :: replaceAllFuel p0 prest fuel rest

/-- `replaceAllFuel` taking the pattern as a list (non-empty at all call
sites; Python's behaviour for an empty pattern is not reproduced). -/
def replaceAllS (pat : List Char) (s : List Char) : List Char :=
  match pat with
  | [] => s
  | p0 :: prest => replaceAllFuel p0 prest s.length s

/-- `re.sub(pat, "", s, flags=re.IGNORECASE)` for a non-empty literal
lowercase `pat`: case-insensitive removal of all occurrences, with fuel. -/
def replaceAllCIFuel (p0 : Char) (prest : List Char) : Nat → List Char → List Char
  | _, [] => []
  | 0, s => s
  | fuel + 1, c :: rest =>
    if lowStr ((c :: rest).take (prest.length + 1)) = p0 :: prest then
      replaceAllCIFuel p0 prest fuel (rest.drop prest.length)
    else c :: replaceAllCIFuel p0 prest fuel rest

/-- `replaceAllCIFuel` taking the pattern as a list (non-empty, lowercase at
all call sites). -/
def replaceAllCIS (pat : List Char) (s : List Char) : List Char :=
  match pat with
  | [] => s
  | p0 :: prest => replaceAllCIFuel p0 prest s.length s

/-- Python `str.rstrip("?")`. -/
def rstripQm (s : List Char) : List Char :=
  (s.reverse.dropWhile (fun c => c = '?')).reverse

/-! ### Intent classification (src/agents/orchestrator.py) -/

namespace Intent

def STOCK_ANALYSIS : String := "stock_analysis"

def STOCK_COMPARISON : String := "stock_comparison"

def MF_ANALYSIS : String := "mf_analysis"

def MF_COMPARISON : String := "mf_comparison"

def NEWS : String := "news"

def CONCEPT_EXPLANATION : String := "concept_explanation"

def FOLLOWUP : String := "followup"

def UNCLEAR : String := "unclear"

def HELP : String := "help"

def EXIT : String := "exit"

end Intent

/-- A value stored in the classifier's `params` dict. -/
inductive ParamVal where
  | str (s : List Char)
  | strList (l : List (List Char))
  deriving DecidableEq, Repr

abbrev Params := List (String × ParamVal)

/-- `params.get(k, default)` for a string-valued entry. -/
def getStrParam (params : Params) (k : String) (dflt : List Char) : List Char :=
  match params.lookup k with
  | some (.str s) => s
  | _ => dflt

/-- `params.get(k, [])` for a list-valued entry. -/
def getListParam (params : Params) (k : String) : List (List Char) :=
  match params.lookup k with
  | some (.strList l) => l
  | _ => []

/-- `any(p in query for p in patterns)`. -/
def anyPatIn (pats : List String) (q : List Char) : Bool :=
  pats.any (fun p => hasSub p.toList q)

/-- `_is_comparison`. -/
def is_comparison (q : List Char) : Bool :=
  anyPatIn ["compare", "vs", "versus", "difference between", "better"] q

/-- `_is_mf_query`. -/
def is_mf_query (q : List Char) : Bool :=
  anyPatIn ["mutual fund", "mf ", " fund", "flexi cap", "large cap",
            "mid cap", "small cap", "elss", "sip", "nav"] q

/-- `_is_news_query`. -/
def is_news_query (q : List Char) : Bool :=
  anyPatIn ["news", "happening", "latest", "recent", "update"] q

/-- `_is_concept_query`. -/
def is_concept_query (q : List Char) : Bool :=
  anyPatIn ["what is", "what's", "what does", "explain", "meaning of",
            "define", "how does", "why is"] q

/-- `_is_stock_query`. -/
def is_stock_query (q : List Char) : Bool :=
  anyPatIn ["tell me about", "analyze", "analysis", "stock", "share",
            "company", "how is", "price of"] q

/-- `_is_followup`. -/
def is_followup (q : List Char) : Bool :=
  anyPatIn ["why", "how come", "what about", "and", "also", "more",
            "their", "its", "this", "that", "it"] q

/-- `_is_exit_command`: `query.lower() in [...]`. -/
def is_exit_command (q : List Char) : Bool :=
  (["exit", "quit", "bye", "goodbye", "q"].map (fun s => s.toList)).contains (lowStr q)

/-- `_is_help_command`. -/
def is_help_command (q : List Char) : Bool :=
  (["help", "?", "commands", "how to use"].map (fun s => s.toList)).contains (lowStr q)

/-- `_extract_comparison_symbols`: uppercase, split on the `VS` regex when a
`" VS "`/`" VS. "` substring is present, else on literal `" AND "`, clean each
segment and drop empties. -/
def extract_comparison_symbols (query : List Char) : List (List Char) :=
  let q := upStr query
  if hasSub " VS ".toList q || hasSub " VS. ".toList q then
    ((splitVs q).map cleanSymbol).filter (fun s => !s.isEmpty)
  else if hasSub " AND ".toList q then
    ((splitSep ' ' "AND ".toList q).map cleanSymbol).filter (fun s => !s.isEmpty)
  else []

/-- `_extract_stock_symbol`: uppercase, strip a fixed phrase list by plain
substring replacement, then clean. -/
def extract_stock_symbol (query : List Char) : List Char :=
  cleanSymbol
    ((["TELL ME ABOUT", "ANALYZE", "ANALYSIS OF", "STOCK",
       "SHARE", "COMPANY", "ABOUT", "THE"]).foldl
      (fun acc ph => replaceAllS ph.toList acc) (upStr query))

/-- `_extract_fund_name`: case-insensitive removal of lead-in phrases. -/
def extract_fund_name (query : List Char) : List Char :=
  pyStrip
    ((["tell me about", "analyze", "analysis of", "mutual fund",
       "fund details", "about the", "about"]).foldl
      (fun acc ph => replaceAllCIS ph.toList acc) query)

/-- `_extract_news_topic`. -/
def extract_news_topic (query : List Char) : List Char :=
  pyStrip
    ((["what's happening with", "news about", "latest on",
       "news on", "updates on", "what is happening"]).foldl
      (fun acc ph => replaceAllCIS ph.toList acc) query)

/-- `_extract_concept`. -/
def extract_concept (query : List Char) : List Char :=
  rstripQm (pyStrip
    ((["what is", "what's", "what does", "explain",
       "meaning of", "define", "mean"]).foldl
      (fun acc ph => replaceAllCIS ph.toList acc) query))

/-- `_classify_intent`, with `self.last_context`'s truthiness as
`lastCtxNonempty`.  The bare-ticker fallback indexes `query.split()[0]`,
raising `IndexError` on a whitespace-only query. -/
def classify (lastCtxNonempty : Bool) (query : List Char) :
    Except PyExc (String × Params) :=
  let query_lower := pyStrip (lowStr query)
  if is_comparison query_lower && !(extract_comparison_symbols query).isEmpty then
    .ok (Intent.STOCK_COMPARISON,
         [("symbols", .strList (extract_comparison_symbols query))])
  else if is_mf_query query_lower then
    .ok (Intent.MF_ANALYSIS, [("fund_name", .str (extract_fund_name query))])
  else if is_news_query query_lower then
    .ok (Intent.NEWS, [("topic", .str (extract_news_topic query))])
  else if is_concept_query query_lower then
    .ok (Intent.CONCEPT_EXPLANATION, [("concept", .str (extract_concept query))])
  else if is_stock_query query_lower then
    .ok (Intent.STOCK_ANALYSIS, [("symbol", .str (extract_stock_symbol query))])
  else if lastCtxNonempty && is_followup query_lower then
    .ok (Intent.FOLLOWUP, [])
  else if (splitWs query).length ≤ 3 then
    match splitWs query with
    | [] => .error .indexError
    | t :: _ => .ok (Intent.STOCK_ANALYSIS, [("symbol", .str (upStr t))])
  else
    .ok (Intent.UNCLEAR, [])

/-! ### Orchestrator dispatch (src/agents/orchestrator.py, src/main.py) -/

/-- `self.last_context`: empty at construction, overwritten by the analysis
handlers. -/
inductive LastCtx where
  | empty
  | stock (symbol name : List Char)
  | comparison (symbols : List (List Char))
  | mutualFund (name : List Char)
  deriving DecidableEq, Repr

/-- Truthiness of the `last_context` dict. -/
def LastCtx.nonempty : LastCtx → Bool
  | .empty => false
  | _ => true

/-- The part of `analyze_stock`'s result the orchestrator inspects:
`analysis.fundamentals.name` when fundamentals are present. -/
structure StockAnalysisRes where
  fundamentalsName : Option (List Char)
  deriving DecidableEq, Repr

/-- The part of `analyze_mutual_fund`'s result the orchestrator inspects:
`analysis.nav.scheme_name` when the NAV record is present. -/
structure MFAnalysisRes where
  navSchemeName : Option (List Char)
  deriving DecidableEq, Repr

/-- Opaque news payload handed to the formatter. -/
abbrev NewsData := List Char

/-- The specialist-agent collaborators `process_query` dispatches to, each of
which performs I/O and may raise. -/
structure OrchEnv where
  analyzeStock : List Char → Except PyExc (Option StockAnalysisRes)
  formatStockAnalysis : StockAnalysisRes → Except PyExc (List Char)
  compareStocks : List (List Char) → Except PyExc (List Char)
  analyzeMutualFund : List Char → Except PyExc (Option MFAnalysisRes)
  searchMutualFunds : List Char → Except PyExc (List (List Char))
  formatMutualFundAnalysis : MFAnalysisRes → Except PyExc (List Char)
  getStockNews : List Char → List Char → Except PyExc (Option NewsData)
  getMarketNews : Unit → Except PyExc (Option NewsData)
  formatNewsResponse : NewsData → Except PyExc (List Char)
  explainConcept : List Char → Except PyExc (List Char)
  handleFollowup : List Char → LastCtx → Except PyExc (List Char)
  getClarification : List Char → Except PyExc (List Char)

/-- A handler's observable outcome: `(response, agent, tools_used)` plus the
`last_context` the orchestrator holds afterwards. -/
abbrev HandlerResult := (List Char × String × List String) × LastCtx

/-- `_handle_stock_analysis`. -/
def handle_stock_analysis (env : OrchEnv) (ctx : LastCtx) (symbol : List Char) :
    Except PyExc HandlerResult := do
  let a ← env.analyzeStock symbol
  match a with
  | none =>
    .ok ((("Sorry, I couldn't find data for '".toList ++ symbol ++
           "'. Please check the symbol and try again.".toList),
          "stock_research", []), ctx)
  | some analysis => do
    let ctx' := LastCtx.stock symbol (analysis.fundamentalsName.getD symbol)
    let response ← env.formatStockAnalysis analysis
    .ok ((response, "stock_research",
          ["get_stock_fundamentals", "get_quote", "search_stock_news"]), ctx')

/-- `_handle_stock_comparison`. -/
def handle_stock_comparison (env : OrchEnv) (ctx : LastCtx)
    (symbols : List (List Char)) : Except PyExc HandlerResult := do
  if symbols.length < 2 then
    .ok (("Please specify at least two stocks to compare. Example: 'Compare TCS vs Infosys'".toList,
          "stock_research", []), ctx)
  else do
    let response ← env.compareStocks symbols
    .ok ((response, "stock_research", ["get_stock_fundamentals"]),
         LastCtx.comparison symbols)

/-- `_handle_mf_analysis`. -/
def handle_mf_analysis (env : OrchEnv) (ctx : LastCtx) (fund_name : List Char) :
    Except PyExc HandlerResult := do
  let a ← env.analyzeMutualFund fund_name
  match a with
  | none => do
    let results ← env.searchMutualFunds fund_name
    if !results.isEmpty then
      let suggestions := List.intercalate "\n".toList
        ((results.take 5).map (fun r => "• ".toList ++ r))
      .ok (("I couldn't find an exact match for '".toList ++ fund_name ++
            "'. Did you mean:\n".toList ++ suggestions, "mf_research", []), ctx)
    else
      .ok (("Sorry, I couldn't find any mutual fund matching '".toList ++
            fund_name ++ "'.".toList, "mf_research", []), ctx)
  | some analysis => do
    let ctx' := LastCtx.mutualFund (analysis.navSchemeName.getD fund_name)
    let response ← env.formatMutualFundAnalysis analysis
    .ok ((response, "mf_research", ["get_nav", "search_funds"]), ctx')

/-- `_handle_news`. -/
def handle_news (env : OrchEnv) (ctx : LastCtx) (topic : List Char) :
    Except PyExc HandlerResult := do
  let nd ← env.getStockNews (upStr topic) topic
  let nd2 ← match nd with
    | none => env.getMarketNews ()
    | some d => pure (some d)
  match nd2 with
  | none =>
    .ok (("Sorry, I couldn't fetch news at the moment. Please try again.".toList,
          "news", []), ctx)
  | some d => do
    let response ← env.formatNewsResponse d
    .ok ((response, "news", ["search_news"]), ctx)

/-- `_handle_concept`. -/
def handle_concept (env : OrchEnv) (ctx : LastCtx) (concept : List Char) :
    Except PyExc HandlerResult := do
  let response ← env.explainConcept concept
  .ok ((response, "conversation", []), ctx)

/-- `_handle_followup`. -/
def handle_followup (env : OrchEnv) (ctx : LastCtx) (conversationPresent : Bool)
    (query : List Char) : Except PyExc HandlerResult := do
  if !conversationPresent then
    let r ← env.getClarification query
    .ok ((r, "conversation", []), ctx)
  else do
    let response ← env.handleFollowup query ctx
    .ok ((response, "conversation", []), ctx)

/-- `_get_help_text`. -/
def helpText : List Char :=
  ("\nInvestEz - Your Investment Research Assistant\n" ++
   "━━━━━━━━━━━━━━━━━━━━━━━━━━━━━━━━━━━━━━━━━━━━━━\n\n" ++
   "WHAT YOU CAN ASK:\n\n📈 Stock Analysis\n   • \"Tell me about Reliance\"\n" ++
   "   • \"Analyze TCS\"\n   • \"How is HDFC Bank doing?\"\n\n📊 Compare Stocks\n" ++
   "   • \"Compare TCS vs Infosys\"\n   • \"Reliance vs HDFC Bank\"\n\n💰 Mutual Funds\n" ++
   "   • \"Tell me about Parag Parikh Flexi Cap\"\n   • \"Analyze HDFC Mid Cap\"\n\n" ++
   "📰 News\n   • \"What's happening with Adani?\"\n   • \"Market news\"\n\n❓ Concepts\n" ++
   "   • \"What is P/E ratio?\"\n   • \"Explain debt to equity\"\n\nCOMMANDS:\n" ++
   "   • help - Show this message\n   • exit - Save and exit\n\n" ++
   "Type your question to get started!\n").toList

/-- `Orchestrator.process_query`: strip, exit/help shortcuts, classify,
dispatch.  There is no exception handling anywhere in this function. -/
def process_query (env : OrchEnv) (ctx : LastCtx) (conversationPresent : Bool)
    (query : List Char) : Except PyExc HandlerResult := do
  let q := pyStrip query
  if is_exit_command q then
    .ok (("Goodbye! Your conversation has been saved.".toList, "system", []), ctx)
  else if is_help_command q then
    .ok ((helpText, "system", []), ctx)
  else do
    let ip ← classify ctx.nonempty q
    if ip.1 = Intent.STOCK_ANALYSIS then
      handle_stock_analysis env ctx (getStrParam ip.2 "symbol" q)
    else if ip.1 = Intent.STOCK_COMPARISON then
      handle_stock_comparison env ctx (getListParam ip.2 "symbols")
    else if ip.1 = Intent.MF_ANALYSIS then
      handle_mf_analysis env ctx (getStrParam ip.2 "fund_name" q)
    else if ip.1 = Intent.NEWS then
      handle_news env ctx (getStrParam ip.2 "topic" q)
    else if ip.1 = Intent.CONCEPT_EXPLANATION then
      handle_concept env ctx (getStrParam ip.2 "concept" q)
    else if ip.1 = Intent.FOLLOWUP then
      handle_followup env ctx conversationPresent q
    else do
      let r ← env.getClarification q
      .ok ((r, "conversation", []), ctx)

/-- Observable outcome of one iteration of `run_conversation_loop` in
src/main.py. -/
inductive TurnResult where
  | skipped
  | exited
  | replied (response : List Char) (agent : String) (tools : List String) (ctx : LastCtx)
  | errorHandled (e : PyExc)
  deriving DecidableEq, Repr

/-- One iteration of the CLI loop (src/main.py lines 141-200): empty input is
skipped, the loop's own exit list short-circuits, and `except Exception`
converts any exception from `process_query` into a printed error message and
continues. -/
def conversation_turn (env : OrchEnv) (ctx : LastCtx) (conversationPresent : Bool)
    (rawInput : List Char) : TurnResult :=
  let ui := pyStrip rawInput
  if ui.isEmpty then .skipped
  else if (["exit", "quit", "bye", "q"].map (fun s => s.toList)).contains (lowStr ui) then
    .exited
  else
    match process_query env ctx conversationPresent ui with
    | .ok ((r, a, t), ctx') => .replied r a t ctx'
    | .error e => .errorHandled e

/-! ### Shared sample data for witnesses and counterexamples -/

/-- A screener oracle that never finds fundamentals. -/
def noFund : String → Option String := fun _ => none

/-- A day-change oracle that never resolves a scheme. -/
def noMfDay : String → Option (ℚ × ℚ) := fun _ => none

/-- A quiet portfolio environment: no sessions, empty APIs. -/
def quietEnv : PortfolioEnv where
  kiteSession := false
  kiteHoldingsApi := .ok []
  kiteMfHoldingsApi := .ok []
  growwSession := false
  growwHoldingsApi := .ok none
  growwQuoteApi := fun _ => .ok none
  fund := noFund
  mfDay := noMfDay

/-- An orchestrator environment whose stock-analysis collaborator raises. -/
def raisingOrchEnv : OrchEnv where
  analyzeStock := fun _ => .error (.other "boom")
  formatStockAnalysis := fun _ => .ok []
  compareStocks := fun _ => .ok []
  analyzeMutualFund := fun _ => .ok none
  searchMutualFunds := fun _ => .ok []
  formatMutualFundAnalysis := fun _ => .ok []
  getStockNews := fun _ _ => .ok none
  getMarketNews := fun _ => .ok none
  formatNewsResponse := fun _ => .ok []
  explainConcept := fun _ => .ok []
  handleFollowup := fun _ _ => .ok []
  getClarification := fun _ => .ok []

/-! ### Rounding and monad toolkit -/

theorem except_bind_ok {e a b : Type _} (x : a) (f : a → Except e b) :
    (Except.ok x >>= f) = f x := rfl

theorem except_bind_err {e a b : Type _} (err : e) (f : a → Except e b) :
    ((Except.error err : Except e a) >>= f) = Except.error err := rfl

theorem except_pure_bind {e a b : Type _} (x : a) (f : a → Except e b) :
    ((pure x : Except e a) >>= f) = f x := rfl

/-- Every element of a successful `mapM` image comes from a successful
application of `f` to some element of the input. -/
theorem mapM_mem_ok {a b : Type} {f : a → Except PyExc b} {l : List a}
    {bs : List b} (h : l.mapM f = .ok bs) : ∀ x ∈ bs, ∃ y ∈ l, f y = .ok x := by
  induction l generalizing bs with
  | nil =>
    rw [List.mapM_nil] at h
    cases h
    simp
  | cons hd tl ih =>
    rw [List.mapM_cons] at h
    cases hfa : f hd with
    | error e => rw [hfa] at h; exact absurd h (by simp [except_bind_err])
    | ok b0 =>
      rw [hfa, except_bind_ok] at h
      cases hmt : tl.mapM f with
      | error e => rw [hmt] at h; exact absurd h (by simp [except_bind_err])
      | ok rest =>
        rw [hmt, except_bind_ok] at h
        have hbs : bs = b0 :: rest := by
          have := h
          simp only [pure, Except.pure] at this
          exact (Except.ok.inj this).symm
        subst hbs
        intro x hx
        rcases List.mem_cons.mp hx with hx0 | hxr
        · exact ⟨hd, List.mem_cons_self _ _, hx0 ▸ hfa⟩
        · obtain ⟨y, hy, hfy⟩ := ih hmt x hxr
          exact ⟨y, List.mem_cons_of_mem _ hy, hfy⟩

theorem round2_sub_abs (x : ℚ) : |round2 x - x| ≤ 1 / 200 := by
  have h : |(round (x * 100) : ℚ) - x * 100| ≤ 1 / 2 := by
    rw [abs_sub_comm]; exact abs_sub_round (x * 100)
  have e : round2 x - x = ((round (x * 100) : ℚ) - x * 100) / 100 := by
    rw [round2]; ring
  rw [e, abs_div]
  have h100 : |(100 : ℚ)| = 100 := by norm_num
  rw [h100]
  linarith

theorem round2_mul_int (x : ℚ) : ∃ n : ℤ, round2 x = n / 100 :=
  ⟨round (x * 100), rfl⟩

theorem round2_eq_self (n : ℤ) {x : ℚ} (h : x = n / 100) : round2 x = x := by
  subst h
  rw [round2]
  have e : (n : ℚ) / 100 * 100 = (n : ℚ) := by field_simp
  rw [e, round_intCast]

/-- Rounding commutes with addition on exact multiples of `1/100`. -/
theorem round2_sum_add_eq {S M : ℚ} (hS : ∃ n : ℤ, S = n / 100)
    (hM : ∃ n : ℤ, M = n / 100) : round2 (S + M) = round2 S + round2 M := by
  obtain ⟨na, ha⟩ := hS
  obtain ⟨nb, hb⟩ := hM
  rw [round2_eq_self na ha, round2_eq_self nb hb,
    round2_eq_self (n := na + nb) (by rw [ha, hb]; push_cast; ring)]

/-- A sum of multiples of `1/100` is a multiple of `1/100`. -/
theorem sum_div_int (l : List ℚ) (h : ∀ x ∈ l, ∃ n : ℤ, x = n / 100) :
    ∃ n : ℤ, l.sum = n / 100 := by
  induction l with
  | nil => exact ⟨0, by simp⟩
  | cons a t ih =>
    obtain ⟨na, ha⟩ := h a (List.mem_cons_self _ _)
    obtain ⟨nt, ht⟩ := ih (fun x hx => h x (List.mem_cons_of_mem _ hx))
    exact ⟨na + nt, by rw [List.sum_cons, ha, ht]; push_cast; ring⟩

/-- Rounding the sum differs from summing the roundings by at most one cent:
both are multiples of `1/100` and each rounding is within half a cent. -/
theorem round2_add_close (a b : ℚ) :
    |round2 (a + b) - (round2 a + round2 b)| ≤ 1 / 100 := by
  obtain ⟨n₁, h₁⟩ := round2_mul_int (a + b)
  obtain ⟨n₂, h₂⟩ := round2_mul_int a
  obtain ⟨n₃, h₃⟩ := round2_mul_int b
  have t1 := abs_le.mp (round2_sub_abs (a + b))
  have t2 := abs_le.mp (round2_sub_abs a)
  have t3 := abs_le.mp (round2_sub_abs b)
  have h320 : |round2 (a + b) - (round2 a + round2 b)| ≤ 3 / 200 :=
    abs_le.mpr ⟨by linarith, by linarith⟩
  have hd : round2 (a + b) - (round2 a + round2 b) = ((n₁ - n₂ - n₃ : ℤ) : ℚ) / 100 := by
    rw [h₁, h₂, h₃]; push_cast; ring
  rw [hd] at h320 ⊢
  rw [abs_div] at h320 ⊢
  have h100 : |(100 : ℚ)| = 100 := by norm_num
  rw [h100] at h320 ⊢
  have hm : |((n₁ - n₂ - n₃ : ℤ) : ℚ)| ≤ 3 / 2 := by linarith
  have hmz : |n₁ - n₂ - n₃| ≤ 1 := by
    by_contra hc
    push_neg at hc
    have h2 : (2 : ℤ) ≤ |n₁ - n₂ - n₃| := hc
    have : (2 : ℚ) ≤ |((n₁ - n₂ - n₃ : ℤ) : ℚ)| := by
      rw [← Int.cast_abs]
      exact_mod_cast h2
    linarith
  have : |((n₁ - n₂ - n₃ : ℤ) : ℚ)| ≤ 1 := by
    rw [← Int.cast_abs]
    exact_mod_cast hmz
  linarith

/-- Rounding each list entry moves the sum by at most `1/200` per entry. -/
theorem sum_map_round2_close (l : List ℚ) :
    |(l.map round2).sum - l.sum| ≤ l.length * (1 / 200) := by
  induction l with
  | nil => simp
  | cons a t ih =>
    simp only [List.map_cons, List.sum_cons, List.length_cons]
    have h1 := abs_le.mp (round2_sub_abs a)
    have ih' := abs_le.mp ih
    apply abs_le.mpr
    constructor <;> push_cast <;> linarith

/-- A successfully enriched stock holding carries a `pnl` that was rounded to
two decimals, hence a multiple of `1/100`. -/
theorem enrich_holding_pnl_shape (fund : String → Option String) (raw : RawHolding)
    (b : String) (h' : Holding) (h : enrich_holding fund raw b = .ok h') :
    ∃ n : ℤ, h'.pnl = n / 100 := by
  simp only [enrich_holding] at h
  cases hv : pyMul (raw.quantity.getD (some 0)) (raw.last_price.getD (some 0)) with
  | error e => simp only [hv, except_bind_err] at h; cases h
  | ok value =>
    cases hi : pyMul (raw.quantity.getD (some 0)) (raw.average_price.getD (some 0)) with
    | error e => simp only [hv, hi, except_bind_ok, except_bind_err] at h; cases h
    | ok invested =>
      by_cases hpos : invested > 0
      · cases hp : pyToQ (raw.pnl.getD (some (value - invested))) with
        | error e =>
          simp only [hv, hi, except_bind_ok, if_pos hpos, hp, except_bind_err] at h
          cases h
        | ok p =>
          simp only [hv, hi, except_bind_ok, if_pos hpos, hp, except_pure_bind,
            pure, Except.pure] at h
          have := Except.ok.inj h
          subst this
          exact round2_mul_int p
      · cases hp : pyToQ (raw.pnl.getD (some (value - invested))) with
        | error e =>
          simp only [hv, hi, except_bind_ok, if_neg hpos, except_pure_bind, hp,
            except_bind_err] at h
          cases h
        | ok p =>
          simp only [hv, hi, except_bind_ok, if_neg hpos, except_pure_bind, hp,
            pure, Except.pure] at h
          have := Except.ok.inj h
          subst this
          exact round2_mul_int p

/-- A successfully processed MF holding likewise has a two-decimal `pnl`. -/
theorem process_mf_holding_pnl_shape (mfDay : String → Option (ℚ × ℚ))
    (raw : RawHolding) (b : String) (m' : MFHolding)
    (h : process_mf_holding mfDay raw b = .ok m') : ∃ n : ℤ, m'.pnl = n / 100 := by
  simp only [process_mf_holding] at h
  cases hv : pyMul (raw.quantity.getD (some 0)) (raw.last_price.getD (some 0)) with
  | error e => simp only [hv, except_bind_err] at h; cases h
  | ok value =>
    cases hi : pyMul (raw.quantity.getD (some 0)) (raw.average_price.getD (some 0)) with
    | error e => simp only [hv, hi, except_bind_ok, except_bind_err] at h; cases h
    | ok invested =>
      simp only [hv, hi, except_bind_ok, pure, Except.pure] at h
      have := Except.ok.inj h
      subst this
      exact round2_mul_int _

/-! ### Symbol-character toolkit for the comparison-classification claim -/

/-- The characters a plain ticker token may contain: ASCII letters, digits,
and the `&`/`_` kept by `_clean_symbol`. -/
def symChars : List Char :=
  ['A', 'B', 'C', 'D', 'E', 'F', 'G', 'H', 'I', 'J', 'K', 'L', 'M',
   'N', 'O', 'P', 'Q', 'R', 'S', 'T', 'U', 'V', 'W', 'X', 'Y', 'Z',
   'a', 'b', 'c', 'd', 'e', 'f', 'g', 'h', 'i', 'j', 'k', 'l', 'm',
   'n', 'o', 'p', 'q', 'r', 's', 't', 'u', 'v', 'w', 'x', 'y', 'z',
   '0', '1', '2', '3', '4', '5', '6', '7', '8', '9', '&', '_']

theorem symChar_up_mem {c : Char} (hc : c ∈ symChars) : upChar c ∈ symChars := by
  fin_cases hc <;> decide

theorem symChar_not_space {c : Char} (hc : c ∈ symChars) : isPySpace c = false := by
  fin_cases hc <;> decide

theorem symChar_low_not_space {c : Char} (hc : c ∈ symChars) :
    isPySpace (lowChar c) = false := by
  fin_cases hc <;> decide

theorem symChar_wordAmp {c : Char} (hc : c ∈ symChars) : isWordAmp c = true := by
  fin_cases hc <;> decide

theorem symChar_up_idem {c : Char} (hc : c ∈ symChars) :
    upChar (upChar c) = upChar c := by
  fin_cases hc <;> decide

theorem upStr_mem_symChars {X : List Char} (hg : ∀ c ∈ X, c ∈ symChars) :
    ∀ c ∈ upStr X, c ∈ symChars := by
  intro c hc
  rw [upStr, List.mem_map] at hc
  obtain ⟨c0, hc0, rfl⟩ := hc
  exact symChar_up_mem (hg c0 hc0)

theorem upStr_idem {X : List Char} (hg : ∀ c ∈ X, c ∈ symChars) :
    upStr (upStr X) = upStr X := by
  simp only [upStr, List.map_map]
  exact List.map_congr_left (fun c hc => symChar_up_idem (hg c hc))

/-! #### Whitespace scanning lemmas -/

theorem dropWhile_cons_false {p : Char → Bool} {c : Char} {t : List Char}
    (h : p c = false) : (c :: t).dropWhile p = c :: t := by
  simp [List.dropWhile_cons, h]

theorem takeWhile_nonspace_nil {y : List Char}
    (hy : ∀ c ∈ y, isPySpace c = false) : y.takeWhile isPySpace = [] := by
  cases y with
  | nil => rfl
  | cons a t => simp [List.takeWhile_cons, hy a (List.mem_cons_self _ _)]

theorem dropWhile_nonspace_self {y : List Char}
    (hy : ∀ c ∈ y, isPySpace c = false) : y.dropWhile isPySpace = y := by
  cases y with
  | nil => rfl
  | cons a t => exact dropWhile_cons_false (hy a (List.mem_cons_self _ _))

/-- A list whose first and last characters are not whitespace strips to
itself. -/
theorem pyStrip_eq_self_of_ends {l : List Char}
    (h1 : ∀ c, l.head? = some c → isPySpace c = false)
    (h2 : ∀ c, l.getLast? = some c → isPySpace c = false) : pyStrip l = l := by
  unfold pyStrip
  cases l with
  | nil => rfl
  | cons a t =>
    rw [dropWhile_cons_false (h1 a rfl)]
    cases hrev : (a :: t).reverse with
    | nil => exact absurd hrev (by simp)
    | cons b rb =>
      have hb : (a :: t).getLast? = some b := by
        rw [← List.head?_reverse, hrev]
        rfl
      rw [dropWhile_cons_false (h2 b hb)]
      rw [← hrev]
      rw [List.reverse_reverse]

/-! #### `splitVsFuel` behaviour -/

theorem matchVsAt_none_of_head {c : Char} (h : isPySpace c = false)
    (rest : List Char) : matchVsAt (c :: rest) = none := by
  simp [matchVsAt, List.takeWhile_cons, h]

/-- The regex matches exactly the separator `" VS "` when what follows starts
with a non-whitespace character. -/
theorem matchVsAt_sep (y : List Char) (hy : ∀ c ∈ y, isPySpace c = false) :
    matchVsAt (' ' :: 'V' :: 'S' :: ' ' :: y) = some y := by
  have hsp : isPySpace ' ' = true := rfl
  have hV : isPySpace 'V' = false := rfl
  have htw : (' ' :: 'V' :: 'S' :: ' ' :: y).takeWhile isPySpace = [' '] := by
    simp [List.takeWhile_cons, hsp, hV]
  have hdw : (' ' :: 'V' :: 'S' :: ' ' :: y).dropWhile isPySpace
      = 'V' :: 'S' :: ' ' :: y := by
    simp [List.dropWhile_cons, hsp, hV]
  have htw2 : (' ' :: y).takeWhile isPySpace = [' '] := by
    simp [List.takeWhile_cons, hsp, takeWhile_nonspace_nil hy]
  have hdw2 : (' ' :: y).dropWhile isPySpace = y := by
    simp [List.dropWhile_cons, hsp, dropWhile_nonspace_self hy]
  simp [matchVsAt, htw, hdw, htw2, hdw2]

theorem splitVsFuel_append_nonspace (r : List Char) (rs : List (List Char)) :
    ∀ (l : List Char) (fuel : Nat) (m : List Char),
      (∀ c ∈ l, isPySpace c = false) → l.length + m.length ≤ fuel →
      (∀ f, m.length ≤ f → splitVsFuel f m = r :: rs) →
      splitVsFuel fuel (l ++ m) = (l ++ r) :: rs := by
  intro l
  induction l with
  | nil =>
    intro fuel m _ hf hm
    simpa using hm fuel (by simpa using hf)
  | cons c l' ih =>
    intro fuel m hl hf hm
    cases fuel with
    | zero => simp at hf
    | succ f =>
      rw [List.cons_append]
      rw [show splitVsFuel (f + 1) (c :: (l' ++ m)) =
        (match matchVsAt (c :: (l' ++ m)) with
         | some rem => [] :: splitVsFuel f rem
         | none =>
           match splitVsFuel f (l' ++ m) with
           | [] => [[c]]
           | r' :: rs' => (c :: r') :: rs') from rfl]
      rw [matchVsAt_none_of_head (hl c (List.mem_cons_self _ _))]
      rw [ih f m (fun d hd => hl d (List.mem_cons_of_mem _ hd))
        (by simp at hf ⊢; omega) hm]
      simp

/-- An entirely whitespace-free string is returned as a single segment. -/
theorem splitVsFuel_all_nonspace (l : List Char)
    (hl : ∀ c ∈ l, isPySpace c = false) :
    ∀ fuel, l.length ≤ fuel → splitVsFuel fuel l = [l] := by
  intro fuel hf
  have := splitVsFuel_append_nonspace [] [] l fuel [] hl (by simpa using hf)
    (fun f _ => by cases f <;> rfl)
  simpa using this

/-- Splitting `X ++ " VS " ++ Y` for whitespace-free `X`, `Y` yields exactly
`[X, Y]`. -/
theorem splitVs_sep (X Y : List Char) (hX : ∀ c ∈ X, isPySpace c = false)
    (hY : ∀ c ∈ Y, isPySpace c = false) :
    splitVs (X ++ ' ' :: 'V' :: 'S' :: ' ' :: Y) = [X, Y] := by
  rw [splitVs]
  have hm : ∀ f, (' ' :: 'V' :: 'S' :: ' ' :: Y).length ≤ f →
      splitVsFuel f (' ' :: 'V' :: 'S' :: ' ' :: Y) = [] :: [Y] := by
    intro f hf
    cases f with
    | zero => simp at hf
    | succ f' =>
      rw [show splitVsFuel (f' + 1) (' ' :: 'V' :: 'S' :: ' ' :: Y) =
        (match matchVsAt (' ' :: 'V' :: 'S' :: ' ' :: Y) with
         | some rem => [] :: splitVsFuel f' rem
         | none =>
           match splitVsFuel f' ('V' :: 'S' :: ' ' :: Y) with
           | [] => [[' ']]
           | r' :: rs' => (' ' :: r') :: rs') from rfl]
      rw [matchVsAt_sep Y hY]
      simp [splitVsFuel_all_nonspace Y hY f' (by simp at hf; omega)]
  have := splitVsFuel_append_nonspace [] [Y] X
    (X ++ ' ' :: 'V' :: 'S' :: ' ' :: Y).length (' ' :: 'V' :: 'S' :: ' ' :: Y)
    hX (by simp) hm
  simpa using this

/-! #### `splitWs` and `cleanSymbol` on clean tokens -/

theorem splitWsAux_nonspace (l : List Char) (hl : ∀ c ∈ l, isPySpace c = false) :
    ∀ acc : List Char, ¬(acc = [] ∧ l = []) →
      splitWsAux l acc = [acc.reverse ++ l] := by
  induction l with
  | nil =>
    intro acc hne
    have hacc : acc ≠ [] := fun h => hne ⟨h, rfl⟩
    simp [splitWsAux, List.isEmpty_iff, hacc]
  | cons c t ih =>
    intro acc _
    simp only [splitWsAux, hl c (List.mem_cons_self _ _), Bool.false_eq_true,
      if_false]
    rw [ih (fun d hd => hl d (List.mem_cons_of_mem _ hd)) (c :: acc)
      (by simp)]
    simp

theorem splitWs_single (l : List Char) (hne : l ≠ [])
    (hl : ∀ c ∈ l, isPySpace c = false) : splitWs l = [l] := by
  rw [splitWs, splitWsAux_nonspace l hl [] (fun h => hne h.2)]
  simp

theorem map_wordAmp_id (l : List Char) (hl : ∀ c ∈ l, isWordAmp c = true) :
    l.map (fun c => if isWordAmp c then c else ' ') = l := by
  induction l with
  | nil => rfl
  | cons c t ih =>
    simp [hl c (List.mem_cons_self _ _),
      ih (fun d hd => hl d (List.mem_cons_of_mem _ hd))]

/-- `_clean_symbol` is the identity on a non-empty uppercased token of
symbol characters. -/
theorem cleanSymbol_upStr (X : List Char) (hne : X ≠ [])
    (hg : ∀ c ∈ X, c ∈ symChars) : cleanSymbol (upStr X) = upStr X := by
  have hmem := upStr_mem_symChars hg
  have hne' : upStr X ≠ [] := by
    intro h
    exact hne (List.map_eq_nil_iff.mp h)
  rw [cleanSymbol, map_wordAmp_id _ (fun c hc => symChar_wordAmp (hmem c hc)),
    splitWs_single _ hne' (fun c hc => symChar_not_space (hmem c hc))]
  exact upStr_idem hg

theorem getLast?_append_right {l₁ l₂ : List Char} (h : l₂ ≠ []) :
    (l₁ ++ l₂).getLast? = l₂.getLast? := by
  rw [List.getLast?_append]
  cases hl : l₂.getLast? with
  | none => exact absurd (List.getLast?_eq_none_iff.mp hl) h
  | some a => rfl

theorem mem_of_getLast?_eq {l : List Char} {a : Char} (h : l.getLast? = some a) :
    a ∈ l := by
  obtain ⟨t, rfl⟩ := List.getLast?_eq_some_iff.mp h
  simp

/-! ### Claim theorems -/

section ClaimTheorems

attribute [local semireducible] Rat.mul Rat.add Rat.inv Rat.sub Rat.ofScientific

/-- **C1** (code_bug).  The spec requires a broker's token-expired signal to
propagate as a broker-distinguishable error.  The Groww adapter does propagate
(`GrowwTokenExpiredError`, mapped to `groww_token_expired` by the API routes),
but `tools.kite.get_holdings` catches every exception from `kite.holdings()`
— including a token-expired one — and silently returns the empty holdings
list; no `KiteTokenExpiredError` exists in src/tools/kite.py even though
src/api/routes/portfolio.py imports one from there. -/
theorem kite_token_expired_swallowed :
    (∀ msg : String, kite_get_holdings true (.error (.other msg)) = []) ∧
    groww_get_holdings true (.error (.growwApiError "401 Unauthorized"))
      (fun _ => .ok none) none = .error (.growwTokenExpired growwTokenMsg) := by
  exact ⟨fun _ => rfl, rfl⟩

/-- **C3** (confirmed).  `get_portfolio` and `get_holdings_only` invoke
`tools.kite.get_holdings` with a `user_id` keyword argument although that
function is declared with no parameters, so both raise `TypeError` before any
aggregation, for every environment; `get_portfolio` never returns a
`Portfolio`. -/
theorem get_portfolio_user_id_type_error (env : PortfolioEnv) :
    get_portfolio env = .error (.typeError "got an unexpected keyword argument") ∧
    get_holdings_only env = .error (.typeError "got an unexpected keyword argument") :=
  ⟨rfl, rfl⟩

/-- The raw holding of C4's failing input: a quantity and an average price
but no `last_price` key (and no broker `pnl`). -/
def priceLessRaw : RawHolding :=
  { tradingsymbol := some "ABC", quantity := some (some 2),
    average_price := some (some 5) }

/-- **C4** (code_bug).  `models/portfolio.py` documents
`value = quantity * (current_price or avg_price if current_price is None)` and
`pnl = None if current_price is not available`, and the spec states the same
invariant.  `_enrich_holding` instead defaults a missing `last_price` to `0`:
for quantity 2 and average price 5 it produces `value = 0` (the documented
invariant demands `10`) and fabricates `pnl = -10` (the documentation demands
`None`). -/
theorem enrich_holding_fabricates_from_missing_price :
    enrich_holding noFund priceLessRaw "kite" =
      .ok { symbol := "ABC", exchange := "NSE", isin := none,
            quantity := some 2, avg_price := some 5, current_price := some 0,
            value := 0, invested := 10, pnl := -10, pnl_percent := -100,
            day_change := some 0, day_change_percent := some 0,
            market_cap_category := none, broker := "kite" } := by decide

/-- **C10** counterexample.  The claim says `get_mf_only` returns an empty
list when the raw MF list is empty; in fact even with an authenticated Kite
session whose MF API returns `[]`, `get_mf_only` raises `TypeError` at the
`get_mf_holdings(user_id=...)` call itself, before the raw list exists. -/
theorem get_mf_only_empty_raw_still_raises :
    get_mf_only { quietEnv with kiteSession := true } =
      .error (.typeError "got an unexpected keyword argument") := by decide

/-- **C10** (corrected).  `get_mf_only` raises `TypeError` for every
environment — at the `tools.kite.get_mf_holdings` call, which is declared
with no parameters but invoked with a `user_id` keyword — so it never returns,
not even an empty list.  Had that call succeeded, the body would return `[]`
for an empty raw list, and a non-empty raw list would still raise `TypeError`
at `_process_mf_holding(m)`, which omits the required `broker` argument. -/
theorem get_mf_only_always_type_error :
    (∀ env, get_mf_only env = .error (.typeError "got an unexpected keyword argument")) ∧
    (∀ mfDay, get_mf_only_body mfDay [] = .ok []) ∧
    (∀ mfDay rawMf, rawMf ≠ [] →
      get_mf_only_body mfDay rawMf =
        .error (.typeError "missing required positional argument")) := by
  refine ⟨fun _ => rfl, fun _ => rfl, fun mfDay rawMf hne => ?_⟩
  match rawMf, hne with
  | m :: rest, _ =>
    simp [get_mf_only_body, call_process_mf_holding_1arg, checkCall,
      process_mf_holding_sig]
    rfl

theorem get_mf_only_always_type_error_witness :
    ([priceLessRaw] ≠ ([] : List RawHolding)) ∧
    get_mf_only_body noMfDay [priceLessRaw] =
      .error (.typeError "missing required positional argument") :=
  ⟨by decide, get_mf_only_always_type_error.2.2 noMfDay [priceLessRaw] (by decide)⟩

/-- **C2** counterexample.  `process_query` contains no exception handling:
with a stock-analysis collaborator that raises, `process_query` on
`"analyze tcs"` propagates the exception to its caller instead of returning
an apologetic `"system"`/`"error"`-tagged response. -/
theorem process_query_propagates_handler_exception :
    process_query raisingOrchEnv .empty true "analyze tcs".toList =
      .error (.other "boom") := by decide

/-- **C2** (corrected, amended).  Exceptions raised inside a handler (or
during classification) propagate out of `process_query`; it is the CLI
conversation loop in src/main.py whose `except Exception` converts any such
exception into a printed error message and continues, so the loop never
crashes on a single bad query. -/
theorem conversation_loop_catches_orchestrator_errors
    (env : OrchEnv) (ctx : LastCtx) (conv : Bool) (q : List Char) (e : PyExc)
    (hne : (pyStrip q).isEmpty = false)
    (hexit : (["exit", "quit", "bye", "q"].map (fun s => s.toList)).contains
      (lowStr (pyStrip q)) = false)
    (herr : process_query env ctx conv (pyStrip q) = .error e) :
    conversation_turn env ctx conv q = .errorHandled e := by
  unfold conversation_turn
  simp only [hne, hexit, herr, Bool.false_eq_true, if_false]

theorem conversation_loop_catches_orchestrator_errors_witness :
    (pyStrip "analyze tcs".toList).isEmpty = false ∧
    conversation_turn raisingOrchEnv .empty true "analyze tcs".toList =
      .errorHandled (.other "boom") :=
  ⟨by decide,
   conversation_loop_catches_orchestrator_errors raisingOrchEnv .empty true
     "analyze tcs".toList (.other "boom") (by decide) (by decide) (by decide)⟩

/-- **C5** (confirmed).  Whenever the aggregation body of `get_portfolio`
(lines 217-284, embedded as `build_portfolio`) produces a summary, its totals
are consistent: `total_pnl = stocks_pnl + mf_pnl` holds exactly (per-holding
P&L is already rounded, so the sums are exact multiples of `1/100`), and
`total_value` agrees with `stocks_value + mf_value` within the 2-decimal
rounding of each field, i.e. within `1/100`.  (`get_portfolio` itself dies at
the broken adapter call of C3 before reaching this code.) -/
theorem build_portfolio_totals_invariant
    (fund : String → Option String) (mfDay : String → Option (ℚ × ℚ))
    (rk rg rm : List RawHolding) (p : Portfolio)
    (h : build_portfolio fund mfDay rk rg rm = .ok (some p)) :
    |p.summary.total_value - (p.summary.stocks_value + p.summary.mf_value)| ≤ 1 / 100 ∧
    p.summary.total_pnl = p.summary.stocks_pnl + p.summary.mf_pnl := by
  simp only [build_portfolio] at h
  split at h
  · exact absurd h (by simp [pure, Except.pure])
  · cases hsv : (combined_raw rk rg).mapM (fun q => rawValue q.1) with
    | error e => simp only [hsv, except_bind_err] at h; cases h
    | ok sv =>
      cases hmv : rm.mapM rawValue with
      | error e => simp only [hsv, hmv, except_bind_ok, except_bind_err] at h; cases h
      | ok mv =>
        cases hhs : (combined_raw rk rg).mapM (fun q => enrich_holding fund q.1 q.2) with
        | error e =>
          simp only [hsv, hmv, hhs, except_bind_ok, except_bind_err] at h; cases h
        | ok hs =>
          cases hms : rm.mapM (fun m => process_mf_holding mfDay m "kite") with
          | error e =>
            simp only [hsv, hmv, hhs, hms, except_bind_ok, except_bind_err] at h
            cases h
          | ok ms =>
            cases hdc : hs.mapM (fun x => pyMul x.day_change x.quantity) with
            | error e =>
              simp only [hsv, hmv, hhs, hms, hdc, except_bind_ok, except_bind_err] at h
              cases h
            | ok dc =>
              simp only [hsv, hmv, hhs, hms, hdc, except_bind_ok, pure,
                Except.pure] at h
              have hp := Option.some.inj (Except.ok.inj h)
              subst hp
              constructor
              · exact round2_add_close _ _
              · have hSP : ∃ n : ℤ, (hs.map (fun x => x.pnl)).sum = n / 100 := by
                  refine sum_div_int _ (fun x hx => ?_)
                  rw [List.mem_map] at hx
                  obtain ⟨h', hmem, rfl⟩ := hx
                  obtain ⟨q, _, hok⟩ := mapM_mem_ok hhs h' hmem
                  exact enrich_holding_pnl_shape fund q.1 q.2 h' hok
                have hMP : ∃ n : ℤ, (ms.map (fun x => x.pnl)).sum = n / 100 := by
                  refine sum_div_int _ (fun x hx => ?_)
                  rw [List.mem_map] at hx
                  obtain ⟨m', hmem, rfl⟩ := hx
                  obtain ⟨q, _, hok⟩ := mapM_mem_ok hms m' hmem
                  exact process_mf_holding_pnl_shape mfDay q "kite" m' hok
                exact round2_sum_add_eq hSP hMP

/-- A one-holding sample input whose aggregation succeeds. -/
def sampleRaw : RawHolding :=
  { tradingsymbol := some "A", quantity := some (some 2),
    average_price := some (some 5), last_price := some (some 7) }

/-- The portfolio the sample input aggregates to. -/
def samplePortfolio : Portfolio :=
  { summary :=
      { total_value := 14, total_invested := 10, total_pnl := 4,
        total_pnl_percent := 40, day_pnl := 0, day_pnl_percent := 0,
        stocks_value := 14, mf_value := 0, stocks_invested := 10,
        mf_invested := 0, stocks_pnl := 4, mf_pnl := 0, stocks_day_change := 0,
        mf_day_change := 0, holdings_count := 1, mf_count := 0 },
    holdings :=
      [{ symbol := "A", exchange := "NSE", isin := none, quantity := some 2,
         avg_price := some 5, current_price := some 7, value := 14,
         invested := 10, pnl := 4, pnl_percent := 40, day_change := some 0,
         day_change_percent := some 0, market_cap_category := none,
         broker := "kite" }],
    mf_holdings := [],
    allocation := { market_cap := [],
                    asset_type := [("Stocks", 100), ("Mutual Funds", 0)] } }

theorem build_portfolio_totals_invariant_witness :
    build_portfolio noFund noMfDay [sampleRaw] [] [] = .ok (some samplePortfolio) ∧
    |samplePortfolio.summary.total_value -
      (samplePortfolio.summary.stocks_value + samplePortfolio.summary.mf_value)| ≤ 1 / 100 ∧
    samplePortfolio.summary.total_pnl =
      samplePortfolio.summary.stocks_pnl + samplePortfolio.summary.mf_pnl :=
  ⟨by decide,
   (build_portfolio_totals_invariant noFund noMfDay [sampleRaw] [] []
     samplePortfolio (by decide)).1,
   (build_portfolio_totals_invariant noFund noMfDay [sampleRaw] [] []
     samplePortfolio (by decide)).2⟩

/-- A holding whose market-cap category is unresolved (`None`). -/
def unknownCapHolding : Holding :=
  { symbol := "A", exchange := "NSE", isin := none, quantity := some 1,
    avg_price := some 10, current_price := some 10, value := 10, invested := 10,
    pnl := 0, pnl_percent := 0, day_change := some 0, day_change_percent := some 0,
    market_cap_category := none, broker := "kite" }

/-- **C6** counterexample.  A portfolio consisting of one holding with
unknown category has positive total value, yet after the `"Unknown"` bucket
is dropped the market-cap allocation is empty and its percentages sum to `0`,
not `100 ± 0.1`. -/
theorem allocation_unknown_only_breaks_claim :
    (0 : ℚ) < 10 + 0 ∧
    ((calculate_allocation [unknownCapHolding] [] 10 0).market_cap.map
      (fun e => e.2)).sum = 0 ∧
    ¬|((calculate_allocation [unknownCapHolding] [] 10 0).market_cap.map
      (fun e => e.2)).sum - 100| ≤ 1 / 10 := by
  refine ⟨by norm_num, by decide, ?_⟩
  intro hcontra
  have h0 : ((calculate_allocation [unknownCapHolding] [] 10 0).market_cap.map
      (fun e => e.2)).sum = 0 := by decide
  rw [h0] at hcontra
  norm_num at hcontra

theorem sum_map_mul_right_q (l : List ℚ) (r : ℚ) :
    (l.map (fun x => x * r)).sum = l.sum * r := by
  induction l with
  | nil => simp
  | cons a t ih => simp only [List.map_cons, List.sum_cons, ih]; ring

/-- **C6** (corrected, amended).  When the value accumulated in the
non-`"Unknown"` buckets is positive (not merely the overall total) and those
buckets number at most 20 — in this system they are drawn from the four names
Large/Mid/Small/Multi Cap, so at most 4 — the market-cap percentages sum to
`100` within `±0.1`; the `"Unknown"` bucket is excluded from the denominator
before normalising. -/
theorem allocation_percentages_sum_100 (hs : List Holding) (ms : List MFHolding)
    (stocks_value mf_value : ℚ)
    (hpos : 0 < (((mcap_buckets hs ms).filter
      (fun e => e.1 ≠ "Unknown")).map (fun e => e.2)).sum)
    (hlen : ((mcap_buckets hs ms).filter (fun e => e.1 ≠ "Unknown")).length ≤ 20) :
    |((calculate_allocation hs ms stocks_value mf_value).market_cap.map
      (fun e => e.2)).sum - 100| ≤ 1 / 10 := by
  simp only [calculate_allocation]
  set F := (mcap_buckets hs ms).filter (fun e => e.1 ≠ "Unknown") with hF
  set T := (F.map (fun e => e.2)).sum with hT
  have hmap : (F.map (fun e =>
      (e.1, if T > 0 then round2 (e.2 / T * 100) else 0))).map (fun e => e.2)
      = (F.map (fun e => e.2 / T * 100)).map round2 := by
    simp only [List.map_map]
    refine List.map_congr_left (fun e _ => ?_)
    simp only [Function.comp_apply, if_pos hpos]
  rw [hmap]
  have hsum : (F.map (fun e => e.2 / T * 100)).sum = 100 := by
    have he : F.map (fun e => e.2 / T * 100)
        = (F.map (fun e => e.2)).map (fun x => x * (100 / T)) := by
      simp only [List.map_map]
      refine List.map_congr_left (fun e _ => ?_)
      simp only [Function.comp_apply]
      ring
    rw [he, sum_map_mul_right_q, ← hT]
    field_simp
  have hclose := sum_map_round2_close (F.map (fun e => e.2 / T * 100))
  rw [hsum] at hclose
  have hlen' : ((F.map (fun e => e.2 / T * 100)).length : ℚ) ≤ 20 := by
    rw [List.length_map]
    exact_mod_cast hlen
  have hb := abs_le.mp hclose
  apply abs_le.mpr
  constructor <;> nlinarith [hb.1, hb.2]

/-- Holdings across two known buckets for the witness. -/
def largeCapHolding : Holding :=
  { unknownCapHolding with market_cap_category := some "Large Cap", value := 30 }

def midCapHolding : Holding :=
  { unknownCapHolding with market_cap_category := some "Mid Cap", value := 70 }

theorem allocation_percentages_sum_100_witness :
    0 < (((mcap_buckets [largeCapHolding, midCapHolding] []).filter
      (fun e => e.1 ≠ "Unknown")).map (fun e => e.2)).sum ∧
    |((calculate_allocation [largeCapHolding, midCapHolding] [] 100 0).market_cap.map
      (fun e => e.2)).sum - 100| ≤ 1 / 10 :=
  ⟨by decide,
   allocation_percentages_sum_100 [largeCapHolding, midCapHolding] [] 100 0
     (by decide) (by decide)⟩

/-- The market-cap heuristic exactly as claim C8 words it (spec-side
definition, for comparison with the source's `parse_mf_market_cap`):
contains "small cap" → Small Cap; contains "mid cap" without "large" →
Mid Cap; contains "large cap" without "mid" → Large Cap; anything else
(including large-and-mid combinations) → Multi Cap.  Matching is
case-insensitive; the claim's table mentions only the spaced spellings. -/
def mf_market_cap_claimed (scheme_name : String) : String :=
  let n := strUp scheme_name
  if strHasSub "SMALL CAP" n then "Small Cap"
  else if strHasSub "MID CAP" n && !strHasSub "LARGE" n then "Mid Cap"
  else if strHasSub "LARGE CAP" n && !strHasSub "MID" n then "Large Cap"
  else "Multi Cap"

/-- **C8** counterexample.  The code also matches the space-less spellings:
`"Nippon India Smallcap Fund"` contains none of the claim's phrases, so the
claimed table defaults it to Multi Cap, but `_parse_mf_market_cap` returns
Small Cap via its `"SMALLCAP"` alternative. -/
theorem mf_market_cap_smallcap_variant_breaks_claim :
    parse_mf_market_cap "Nippon India Smallcap Fund" = "Small Cap" ∧
    mf_market_cap_claimed "Nippon India Smallcap Fund" = "Multi Cap" := by
  constructor <;> decide

/-- The heuristic as amended: each phrase also matches its concatenated
spelling (smallcap/midcap/largecap), otherwise the claim's precedence is
unchanged. -/
def mf_market_cap_amended (scheme_name : String) : String :=
  let n := strUp scheme_name
  if strHasSub "SMALL CAP" n || strHasSub "SMALLCAP" n then "Small Cap"
  else if (strHasSub "MID CAP" n || strHasSub "MIDCAP" n) && !strHasSub "LARGE" n then
    "Mid Cap"
  else if (strHasSub "LARGE CAP" n || strHasSub "LARGECAP" n) && !strHasSub "MID" n then
    "Large Cap"
  else "Multi Cap"

/-- An infix of a pattern is found wherever the pattern is. -/
theorem strHasSub_mono {p q : String} (hpq : p.toList <:+: q.toList) {s : String}
    (h : strHasSub q s = true) : strHasSub p s = true :=
  decide_eq_true (hpq.trans (of_decide_eq_true h))

/-- **C8** (corrected, amended).  `_parse_mf_market_cap` realises the claim's
precedence table once each phrase is extended with its space-less variant:
small(-)cap wins, then mid(-)cap unless "large" occurs, then large(-)cap
unless "mid" occurs, else Multi Cap; the claim's three examples hold. -/
theorem parse_mf_market_cap_precedence :
    (∀ s, parse_mf_market_cap s = mf_market_cap_amended s) ∧
    parse_mf_market_cap "XYZ Small Cap Fund" = "Small Cap" ∧
    parse_mf_market_cap "ABC Large and Mid Cap Fund" = "Multi Cap" ∧
    parse_mf_market_cap "PPFAS Flexi Cap Fund" = "Multi Cap" := by
  refine ⟨fun s => ?_, by decide, by decide, by decide⟩
  simp only [parse_mf_market_cap, mf_market_cap_amended]
  set n := strUp s with hn
  cases hS : (strHasSub "SMALL CAP" n || strHasSub "SMALLCAP" n) with
  | true => simp [hS]
  | false =>
    cases hM : (strHasSub "MID CAP" n || strHasSub "MIDCAP" n) with
    | true =>
      have hMID : strHasSub "MID" n = true := by
        rcases (Bool.or_eq_true _ _).mp hM with h | h
        · exact strHasSub_mono (by decide) h
        · exact strHasSub_mono (by decide) h
      cases hL : strHasSub "LARGE" n with
      | true => simp [hS, hM, hL, hMID]
      | false => simp [hS, hM, hL]
    | false =>
      cases hC : (strHasSub "LARGE CAP" n || strHasSub "LARGECAP" n) with
      | true =>
        cases hMID : strHasSub "MID" n with
        | true => simp [hS, hM, hC, hMID]
        | false => simp [hS, hM, hC, hMID]
      | false => simp [hS, hM, hC]

/-- **C9** counterexample.  The empty query has 0 (≤ 3) whitespace tokens and
matches none of the earlier rules, so the claim promises a `StockAnalysis`
result; `_classify_intent` instead raises `IndexError` at
`query.split()[0]`. -/
theorem classify_empty_query_index_error :
    classify false "".toList = .error .indexError ∧
    (splitWs "".toList).length ≤ 3 ∧
    is_comparison (pyStrip (lowStr "".toList)) = false ∧
    is_mf_query (pyStrip (lowStr "".toList)) = false ∧
    is_news_query (pyStrip (lowStr "".toList)) = false ∧
    is_concept_query (pyStrip (lowStr "".toList)) = false ∧
    is_stock_query (pyStrip (lowStr "".toList)) = false := by
  decide

/-- **C9** (corrected, amended).  For every raw query of at least one and at
most 3 whitespace-separated tokens that matches no earlier classification
rule, `_classify_intent` returns `StockAnalysis` with `symbol` the uppercased
first token (a whitespace-free query of 0 tokens instead raises
`IndexError`). -/
theorem classify_bare_ticker_fallback (lastCtx : Bool) (q t : List Char)
    (ts : List (List Char))
    (h1 : (is_comparison (pyStrip (lowStr q)) &&
      !(extract_comparison_symbols q).isEmpty) = false)
    (h2 : is_mf_query (pyStrip (lowStr q)) = false)
    (h3 : is_news_query (pyStrip (lowStr q)) = false)
    (h4 : is_concept_query (pyStrip (lowStr q)) = false)
    (h5 : is_stock_query (pyStrip (lowStr q)) = false)
    (h6 : (lastCtx && is_followup (pyStrip (lowStr q))) = false)
    (htok : splitWs q = t :: ts) (hlen : ts.length ≤ 2) :
    classify lastCtx q = .ok (Intent.STOCK_ANALYSIS, [("symbol", .str (upStr t))]) := by
  simp only [classify, h1, h2, h3, h4, h5, h6, Bool.false_eq_true, if_false, htok]
  rw [if_pos (show (t :: ts).length ≤ 3 by rw [List.length_cons]; omega)]

theorem classify_bare_ticker_fallback_witness :
    splitWs "zomato".toList = ["zomato".toList] ∧
    classify false "zomato".toList =
      .ok (Intent.STOCK_ANALYSIS, [("symbol", .str (upStr "zomato".toList))]) :=
  ⟨by decide,
   classify_bare_ticker_fallback false "zomato".toList "zomato".toList []
     (by decide) (by decide) (by decide) (by decide) (by decide) (by decide)
     (by decide) (by decide)⟩

/-- **C7** (confirmed).  For any query of the shape `X vs Y` with `X`, `Y`
non-empty tokens over the symbol characters, `_classify_intent` returns
`StockComparison` with `symbols = [X, Y]` uppercased: the comparison keyword
`"vs"` matches, the query is split on the `VS` regex, and each segment's
first cleaned token is kept. -/
theorem classify_vs_returns_comparison_symbols (lastCtx : Bool) (X Y : List Char)
    (hx : X ≠ []) (hy : Y ≠ [])
    (hgx : ∀ c ∈ X, c ∈ symChars) (hgy : ∀ c ∈ Y, c ∈ symChars) :
    classify lastCtx (X ++ " vs ".toList ++ Y) =
      .ok (Intent.STOCK_COMPARISON, [("symbols", .strList [upStr X, upStr Y])]) := by
  have hq : X ++ " vs ".toList ++ Y = X ++ ' ' :: 'v' :: 's' :: ' ' :: Y := by
    simp
  rw [hq]
  have hupX : ∀ c ∈ upStr X, isPySpace c = false :=
    fun c hc => symChar_not_space (upStr_mem_symChars hgx c hc)
  have hupY : ∀ c ∈ upStr Y, isPySpace c = false :=
    fun c hc => symChar_not_space (upStr_mem_symChars hgy c hc)
  have hlow : lowStr (X ++ ' ' :: 'v' :: 's' :: ' ' :: Y)
      = lowStr X ++ ' ' :: 'v' :: 's' :: ' ' :: lowStr Y := by
    simp [lowStr, show lowChar ' ' = ' ' from by decide,
      show lowChar 'v' = 'v' from by decide, show lowChar 's' = 's' from by decide]
  have hstrip : pyStrip (lowStr X ++ ' ' :: 'v' :: 's' :: ' ' :: lowStr Y)
      = lowStr X ++ ' ' :: 'v' :: 's' :: ' ' :: lowStr Y := by
    apply pyStrip_eq_self_of_ends
    · intro c hc
      cases X with
      | nil => exact absurd rfl hx
      | cons x0 X' =>
        have hh : ((lowStr (x0 :: X') ++ ' ' :: 'v' :: 's' :: ' ' ::
            lowStr Y)).head? = some (lowChar x0) := by
          simp [lowStr]
        rw [hh] at hc
        obtain rfl := Option.some.inj hc
        exact symChar_low_not_space (hgx x0 (List.mem_cons_self _ _))
    · intro c hc
      cases Y with
      | nil => exact absurd rfl hy
      | cons y0 Y' =>
        have hgl : (lowStr X ++ ' ' :: 'v' :: 's' :: ' ' ::
            lowStr (y0 :: Y')).getLast? = (lowStr (y0 :: Y')).getLast? := by
          rw [show ' ' :: 'v' :: 's' :: ' ' :: lowStr (y0 :: Y')
            = [' ', 'v', 's', ' '] ++ lowStr (y0 :: Y') from rfl,
            ← List.append_assoc]
          exact getLast?_append_right (by simp [lowStr])
        rw [hgl] at hc
        have hcmem := mem_of_getLast?_eq hc
        rw [lowStr, List.mem_map] at hcmem
        obtain ⟨c0, hc0, rfl⟩ := hcmem
        exact symChar_low_not_space (hgy c0 hc0)
  have hcomp : is_comparison
      (lowStr X ++ ' ' :: 'v' :: 's' :: ' ' :: lowStr Y) = true := by
    have hinf : "vs".toList <:+:
        (lowStr X ++ ' ' :: 'v' :: 's' :: ' ' :: lowStr Y) :=
      ⟨lowStr X ++ [' '], ' ' :: lowStr Y, by simp⟩
    rw [is_comparison, anyPatIn]
    exact List.any_eq_true.mpr ⟨"vs", by simp, decide_eq_true hinf⟩
  have hup : upStr (X ++ ' ' :: 'v' :: 's' :: ' ' :: Y)
      = upStr X ++ ' ' :: 'V' :: 'S' :: ' ' :: upStr Y := by
    simp [upStr, show upChar ' ' = ' ' from by decide,
      show upChar 'v' = 'V' from by decide, show upChar 's' = 'S' from by decide]
  have hvs : hasSub [' ', 'V', 'S', ' ']
      (upStr (X ++ ' ' :: 'v' :: 's' :: ' ' :: Y)) = true := by
    rw [hup]
    exact decide_eq_true ⟨upStr X, upStr Y, by simp⟩
  have hsplit : splitVs (upStr (X ++ ' ' :: 'v' :: 's' :: ' ' :: Y))
      = [upStr X, upStr Y] := by
    rw [hup]
    exact splitVs_sep (upStr X) (upStr Y) hupX hupY
  have hXe : (upStr X).isEmpty = false := by
    cases X with
    | nil => exact absurd rfl hx
    | cons a t => simp [upStr]
  have hYe : (upStr Y).isEmpty = false := by
    cases Y with
    | nil => exact absurd rfl hy
    | cons a t => simp [upStr]
  have hext : extract_comparison_symbols (X ++ ' ' :: 'v' :: 's' :: ' ' :: Y)
      = [upStr X, upStr Y] := by
    simp [extract_comparison_symbols, hvs, hsplit, cleanSymbol_upStr X hx hgx,
      cleanSymbol_upStr Y hy hgy, hXe, hYe]
  simp only [classify, hlow, hstrip, hcomp, hext]
  simp

theorem classify_vs_returns_comparison_symbols_witness :
    classify false ("TCS".toList ++ " vs ".toList ++ "Infosys".toList) =
      .ok (Intent.STOCK_COMPARISON,
        [("symbols", .strList [upStr "TCS".toList, upStr "Infosys".toList])]) :=
  classify_vs_returns_comparison_symbols false "TCS".toList "Infosys".toList
    (by decide) (by decide) (by decide) (by decide)

end ClaimTheorems

end Investez
